import Mathlib

/-!
Verification of the duplicate-record detector
(`detector_duplicados.py`, `detector_duplicados_1_v2.py`,
`detector_duplicados_s1_v3.py`).

The embedding models the duplicate-detection pipeline: per-record
extraction from parsed JSON, identity-key construction, duplicate
grouping, counting, ordering and report-row assembly.  File input and
output sinks (open/json.load, Excel/CSV writers, logging) are outside
the embedding; functions here receive the parsed JSON value that
`json.load` produced, and report generation returns the rows that would
be written (`none` models the Python function returning `False` without
producing rows).

Conventions of the embedding:
* JSON values are the inductive `Json`; objects are association lists
  representing Python dicts (keys unique, as produced by `json.load`).
* Python exceptions that the scripts swallow (`try/except` around each
  record and each file) are modelled by `Option`: a record whose
  navigation would raise is extracted to `none`.
* Python truthiness (`if datos_generales:`, `if nombre and ...`) is
  modelled by `Json.truthy`.
* Python `str()` inside f-strings is modelled by `pyStr`; for strings it
  is the string itself (the only case the claims exercise); container
  renderings follow Python's `repr` form except that `repr`'s escaping
  of quote characters inside strings is not reproduced.
* `pandas` operations are modelled on lists of rows:
  `df.duplicated(keep=False)` marks rows whose key occurs at least
  twice, `value_counts` + `merge` attaches the occurrence count, and
  `sort_values` is a stable sort (for the list sizes considered here
  numpy's sort is its stable insertion sort, and every property proved
  below about the sorted output is independent of tie-breaking).
-/

/-- A parsed JSON value (`json.load` output).  Numbers are modelled as
integers; the claims never exercise fractional values. -/
inductive Json where
  | null : Json
  | bool : Bool → Json
  | num : Int → Json
  | str : String → Json
  | arr : List Json → Json
  | obj : List (String × Json) → Json

/-- Python truthiness of a JSON value: `None`, `False`, `0`, `''`, `[]`
and the empty dict are falsy, everything else truthy. -/
def Json.truthy : Json → Bool
  | .null => false
  | .bool b => b
  | .num n => decide (n ≠ 0)
  | .str s => decide (s ≠ "")
  | .arr xs => !xs.isEmpty
  | .obj kvs => !kvs.isEmpty

/-- `d.get(k, default)` on a Python dict. -/
def jGet (o : List (String × Json)) (k : String) (d : Json) : Json :=
  (o.lookup k).getD d

mutual
/-- Python `repr` of a JSON value (used by `str` on containers).
Escaping of quote characters inside string reprs is not reproduced;
no claim depends on the rendering of containers. -/
def pyRepr : Json → String
  | .null => "None"
  | .bool true => "True"
  | .bool false => "False"
  | .num n => toString n
  | .str s => "'" ++ s ++ "'"
  | .arr xs => "[" ++ pyReprArr xs ++ "]"
  | .obj kvs => "\x7b" ++ pyReprObj kvs ++ "\x7d"
def pyReprArr : List Json → String
  | [] => ""
  | [x] => pyRepr x
  | x :: y :: xs => pyRepr x ++ ", " ++ pyReprArr (y :: xs)
def pyReprObj : List (String × Json) → String
  | [] => ""
  | [(k, v)] => "'" ++ k ++ "': " ++ pyRepr v
  | (k, v) :: w :: kvs => "'" ++ k ++ "': " ++ pyRepr v ++ ", " ++ pyReprObj (w :: kvs)
end

/-- Python `str()` of a JSON value, as used by the f-strings that build
`persona_key` and `nombreCompleto`. -/
def pyStr : Json → String
  | .str s => s
  | j => pyRepr j

/-- Python `s.split(sep)` on character lists: split at every occurrence
of `sep`, keeping empty pieces. -/
def splitChar (sep : Char) : List Char → List (List Char)
  | [] => [[]]
  | c :: cs =>
    if c = sep then [] :: splitChar sep cs
    else
      match splitChar sep cs with
      | [] => [[c]]
      | p :: ps => (c :: p) :: ps

/-- Python string comparison (`<=` by Unicode code points,
lexicographic), on character lists. -/
def pyLeChars : List Char → List Char → Bool
  | [], _ => true
  | _ :: _, [] => false
  | a :: as, b :: bs => if a = b then pyLeChars as bs else decide (a < b)

/-- Python `s <= t` on strings. -/
def pyLeStr (s t : String) : Bool :=
  pyLeChars s.toList t.toList

/-! ## Partitioned extractor (`detector_duplicados_1_v2.py` lines 31-62;
`detector_duplicados_s1_v3.py` lines 111-142 is the identical function) -/

/-- The dict built by `extraer_datos_persona`, plus the `rutaArchivo`
key that `leer_archivos_json_directorio` adds before accumulating
(empty until the walker sets it). -/
structure Persona where
  id : Json
  nombre : Json
  primerApellido : Json
  segundoApellido : Json
  nombreCompleto : String
  institucion : Json
  fechaActualizacion : Json
  tipoDeclaracion : Json
  rutaArchivo : String

/-- `extraer_datos_persona` (v2 lines 31-62 / v3 lines 111-142): walk
`declaracion → situacionPatrimonial → datosGenerales`; absent path or a
falsy `datosGenerales` yields no record; leaf fields default to
sentinels; any navigation step that would raise in Python (indexing a
non-dict, `.get` on a non-dict) is caught by the surrounding
`try/except` and yields `none`. -/
def extraer_datos_persona (registro : Json) : Option Persona :=
  match registro with
  | .obj r =>
    match r.lookup ("declaracion") with
    | some (.obj d) =>
      match d.lookup ("situacionPatrimonial") with
      | some (.obj sp) =>
        let dg := (sp.lookup ("datosGenerales")).getD (.obj [])
        if dg.truthy then
          match dg with
          | .obj g =>
            let nombre := jGet g ("nombre") (.str "")
            let pa := jGet g ("primerApellido") (.str "")
            let sa := jGet g ("segundoApellido") (.str "")
            match (r.lookup ("metadata")).getD (.obj []) with
            | .obj m =>
              some
                { id := jGet r ("id") (.str "Sin ID")
                  nombre := nombre
                  primerApellido := pa
                  segundoApellido := sa
                  nombreCompleto := pyStr nombre ++ " " ++ pyStr pa ++ " " ++ pyStr sa
                  institucion := jGet m ("institucion") (.str "Sin institución")
                  fechaActualizacion := jGet m ("actualizacion") (.str "Sin fecha")
                  tipoDeclaracion := jGet m ("tipo") (.str "Sin tipo")
                  rutaArchivo := "" }
            | _ => none
          | _ => none
        else none
      | _ => none
    | _ => none
  | _ => none

/-- The elements iterated by `for registro in contenido:` after the
`isinstance(contenido, dict)` normalisation: a bare object is treated
as a one-element array; iterating a string yields its characters (each
of which extracts to nothing); a non-iterable raises at file level,
which the scripts catch by skipping the file, so it contributes no
elements. -/
def elemsOf : Json → List Json
  | .obj kvs => [.obj kvs]
  | .arr xs => xs
  | .str s => s.toList.map fun c => .str (String.mk [c])
  | _ => []

/-- The per-file record loop of `leer_archivos_json_directorio`
(v2 lines 85-93 / v3 lines 165-173): extract each element, attach the
file path, keep the successes in order. -/
def extraer_registros_contenido (ruta : String) (contenido : Json) : List Persona :=
  (elemsOf contenido).filterMap fun reg =>
    (extraer_datos_persona reg).map fun p => { p with rutaArchivo := ruta }

/-! ## Partitioned analyzer (`detector_duplicados_1_v2.py` lines
109-130; `detector_duplicados_s1_v3.py` lines 189-210 is identical) -/

/-- A row of the duplicate output: an input row plus the
`cantidadOcurrencias` column added by the `merge`. -/
structure Fila2 where
  persona : Persona
  cantidadOcurrencias : Nat

/-- Number of rows of `df` sharing a given `nombreCompleto`
(`df['nombreCompleto'].value_counts()` entry for that name). -/
def cuentaNombre (df : List Persona) (nc : String) : Nat :=
  df.countP fun p => p.nombreCompleto == nc

/-- Sort key of an output row: (`cantidadOcurrencias`,
`nombreCompleto`). -/
def claveOrden (r : Fila2) : Nat × String :=
  (r.cantidadOcurrencias, r.persona.nombreCompleto)

/-- Order on sort keys from
`sort_values(by=['cantidadOcurrencias','nombreCompleto'],
ascending=[False, True])`: higher count first, ties by ascending
name. -/
def ordenClaves (x y : Nat × String) : Prop :=
  y.1 < x.1 ∨ (x.1 = y.1 ∧ pyLeStr x.2 y.2 = true)

/-- Row order induced by the sort keys. -/
def ordenFilas (a b : Fila2) : Prop :=
  ordenClaves (claveOrden a) (claveOrden b)

instance : DecidableRel ordenClaves := fun x y => by
  unfold ordenClaves; exact inferInstance

instance : DecidableRel ordenFilas := fun a b => by
  unfold ordenFilas; exact inferInstance

/-- `analizar_duplicados` (v2 lines 109-130 / v3 lines 189-210):
keep the rows whose `nombreCompleto` occurs at least twice
(`df.duplicated(['nombreCompleto'], keep=False)`), attach the
occurrence count over the whole batch (`value_counts` + `merge`), sort
by count descending then name ascending, and also return the number of
distinct duplicated names (`len(duplicados['nombreCompleto'].unique())`).
The rows kept by `df.duplicated(['nombreCompleto'], keep=False)`: -/
def duplicadosDe (df : List Persona) : List Persona :=
  df.filter fun p => 2 ≤ cuentaNombre df p.nombreCompleto

/-- The `merge` step: each duplicated row with its
`cantidadOcurrencias` value (`value_counts` computed over the whole
batch), preserving the row order of `duplicados`. -/
def conConteo (df : List Persona) : List Fila2 :=
  (duplicadosDe df).map fun p => Fila2.mk p (cuentaNombre df p.nombreCompleto)

def analizar_duplicados (df : List Persona) : List Fila2 × Nat :=
  if df.isEmpty then ([], 0)
  else if (duplicadosDe df).isEmpty then ([], 0)
  else
    let ordenado := List.insertionSort ordenFilas (conConteo df)
    (ordenado, ((ordenado.map fun r => r.persona.nombreCompleto).dedup).length)

/-! ## Whole-tree extractor and accumulator (`detector_duplicados.py`
lines 31-103) -/

/-- The dict appended to `datos_personas[persona_key]`
(`detector_duplicados.py` lines 64-72). -/
structure OcurWT where
  id : Json
  nombre : Json
  primerApellido : Json
  segundoApellido : Json
  institucion : Json
  fechaActualizacion : Json
  rutaArchivo : String

/-- `persona_key = f"{nombre}|{primer_apellido}|{segundo_apellido}"`
(`detector_duplicados.py` line 55). -/
def claveWT (n pa sa : Json) : String :=
  pyStr n ++ "|" ++ pyStr pa ++ "|" ++ pyStr sa

/-- The per-record body of `procesar_archivo_json`
(`detector_duplicados.py` lines 42-74): same navigation as the
partitioned extractor, but a record is only produced when `nombre` and
`primer_apellido` are truthy; the result is the key together with the
stored occurrence dict. -/
def procesar_registro (ruta : String) (registro : Json) : Option (String × OcurWT) :=
  match registro with
  | .obj r =>
    match r.lookup ("declaracion") with
    | some (.obj d) =>
      match d.lookup ("situacionPatrimonial") with
      | some (.obj sp) =>
        let dg := (sp.lookup ("datosGenerales")).getD (.obj [])
        if dg.truthy then
          match dg with
          | .obj g =>
            let nombre := jGet g ("nombre") (.str "")
            let pa := jGet g ("primerApellido") (.str "")
            let sa := jGet g ("segundoApellido") (.str "")
            if nombre.truthy && pa.truthy then
              match (r.lookup ("metadata")).getD (.obj []) with
              | .obj m =>
                some
                  (claveWT nombre pa sa,
                    { id := jGet r ("id") (.str "Sin ID")
                      nombre := nombre
                      primerApellido := pa
                      segundoApellido := sa
                      institucion := jGet m ("institucion") (.str "Sin institución")
                      fechaActualizacion := jGet m ("actualizacion") (.str "Sin fecha")
                      rutaArchivo := ruta })
              | _ => none
            else none
          | _ => none
        else none
      | _ => none
    | _ => none
  | _ => none

/-- The global accumulator `datos_personas` (a `defaultdict(list)` with
insertion-ordered keys), as an association list. -/
abbrev DatosPersonas := List (String × List OcurWT)

/-- `datos_personas[persona_key].append(entry)`: append to the existing
group of that key, or add a new key at the end. -/
def agregar (dp : DatosPersonas) (k : String) (e : OcurWT) : DatosPersonas :=
  if dp.any fun kv => kv.1 == k then
    dp.map fun kv => if kv.1 == k then (kv.1, kv.2 ++ [e]) else kv
  else dp ++ [(k, [e])]

/-- `procesar_archivo_json` (`detector_duplicados.py` lines 31-77)
after `json.load`: fold every element of the file content into the
accumulator; elements that fail to extract are skipped by the
per-record `try/except`. -/
def procesar_archivo_json (ruta : String) (contenido : Json) (dp : DatosPersonas) : DatosPersonas :=
  (elemsOf contenido).foldl
    (fun acc reg =>
      match procesar_registro ruta reg with
      | some (k, e) => agregar acc k e
      | none => acc)
    dp

/-- Accumulation of a stream of (key, entry) pairs into an initially
empty `datos_personas`, the pattern `explorar_directorios` applies
across all processed records. -/
def acumular (l : List (String × OcurWT)) : DatosPersonas :=
  l.foldl (fun dp ke => agregar dp ke.1 ke.2) []

/-! ## Whole-tree report (`detector_duplicados.py` lines 105-150) -/

/-- A row of the duplicate report (`detector_duplicados.py` lines
123-133). -/
structure FilaWT where
  nombre : String
  primerApellido : String
  segundoApellido : String
  cantidadOcurrencias : Nat
  ocurrenciaNumero : Nat
  id : Json
  institucion : Json
  fechaActualizacion : Json
  rutaArchivo : String

/-- `nombre, primer_apellido, segundo_apellido = persona_key.split('|')`
(line 118): succeeds only when the split has exactly three pieces,
otherwise the unpacking raises `ValueError`. -/
def dividirClave (k : String) : Option (String × String × String) :=
  match splitChar '|' k.toList with
  | [a, b, c] => some (String.mk a, String.mk b, String.mk c)
  | _ => none

/-- The rows produced for one duplicate group (lines 118-133):
`cantidadOcurrencias` is the group size and `ocurrenciaNumero` comes
from `enumerate(ocurrencias, 1)`. -/
def filasGrupo (kv : String × List OcurWT) : Option (List FilaWT) :=
  (dividirClave kv.1).map fun nps =>
    (kv.2.enumFrom 1).map fun io =>
      { nombre := nps.1
        primerApellido := nps.2.1
        segundoApellido := nps.2.2
        cantidadOcurrencias := kv.2.length
        ocurrenciaNumero := io.1
        id := io.2.id
        institucion := io.2.institucion
        fechaActualizacion := io.2.fechaActualizacion
        rutaArchivo := io.2.rutaArchivo }

/-- The `registros` list built by the loop over `duplicados.items()`
(lines 116-133); a failing key unpacking aborts the whole loop (the
exception propagates to the handler at line 148). -/
def filasDuplicados : List (String × List OcurWT) → Option (List FilaWT)
  | [] => some []
  | kv :: rest =>
    match filasGrupo kv with
    | none => none
    | some b => (filasDuplicados rest).map fun r => b ++ r

/-- `generar_informe_duplicados` (lines 105-150): filter to groups with
more than one occurrence; with no duplicates, or when any key fails to
split back into three parts, the function returns `False` and writes
nothing (`none`); otherwise the report rows are produced. -/
def generar_informe_duplicados (dp : DatosPersonas) : Option (List FilaWT) :=
  let duplicados := dp.filter fun kv => 1 < kv.2.length
  if duplicados.isEmpty then none
  else filasDuplicados duplicados

/-! ## Input builders and observation helpers used by the theorems -/

/-- A test record with the nested
`declaracion → situacionPatrimonial → datosGenerales` path present and
the given `datosGenerales` value, plus further top-level keys. -/
def mkRegistro (dg : Json) (extra : List (String × Json)) : Json :=
  .obj (("declaracion",
    .obj [("situacionPatrimonial", .obj [("datosGenerales", dg)])]) :: extra)

/-- The Identity Key of an extracted row, spec §3: the
(firstName, firstSurname, secondSurname) tuple.  The stored fields are
rendered with `pyStr`, which on the string-valued fields the claims
exercise is the identity. -/
def claveIdentidad (p : Persona) : String × String × String :=
  (pyStr p.nombre, pyStr p.primerApellido, pyStr p.segundoApellido)

/-! ## Concrete inputs used by the witnesses and counterexamples -/

/-- A valid declaration record: Ana Lopez (no second surname). -/
def regAna : Json := mkRegistro (.obj [("nombre", .str "Ana"), ("primerApellido", .str "Lopez")]) []

/-- A valid declaration record: Bob Diaz. -/
def regBob : Json := mkRegistro (.obj [("nombre", .str "Bob"), ("primerApellido", .str "Diaz")]) []

/-- The Person-Record extracted from `regAna` (path not yet attached). -/
def personaAna : Persona :=
  { id := .str "Sin ID", nombre := .str "Ana", primerApellido := .str "Lopez",
    segundoApellido := .str "", nombreCompleto := "Ana Lopez ",
    institucion := .str "Sin institución", fechaActualizacion := .str "Sin fecha",
    tipoDeclaracion := .str "Sin tipo", rutaArchivo := "" }

/-- The Person-Record extracted from `regBob` (path not yet attached). -/
def personaBob : Persona :=
  { id := .str "Sin ID", nombre := .str "Bob", primerApellido := .str "Diaz",
    segundoApellido := .str "", nombreCompleto := "Bob Diaz ",
    institucion := .str "Sin institución", fechaActualizacion := .str "Sin fecha",
    tipoDeclaracion := .str "Sin tipo", rutaArchivo := "" }

/-- A sample stored occurrence for the whole-tree accumulator. -/
def ocurEj : OcurWT :=
  { id := .str "7", nombre := .str "Ana", primerApellido := .str "Lopez",
    segundoApellido := .str "Garcia", institucion := .str "SFP",
    fechaActualizacion := .str "2023", rutaArchivo := "dir/a.json" }

/-- Records whose name tuples differ but whose space-joined full names
collide: ("Ana B", "C", "") and ("Ana", "B C", ""). -/
def regColisionA : Json :=
  mkRegistro (.obj [("nombre", .str "Ana B"), ("primerApellido", .str "C")]) [("id", .str "1")]

def regColisionB : Json :=
  mkRegistro (.obj [("nombre", .str "Ana"), ("primerApellido", .str "B C")]) [("id", .str "2")]

/-- The collision batch for C1. -/
def dfColision : List Persona :=
  extraer_registros_contenido ("lote.json") (.arr [regColisionA, regColisionB])

/-- A second collision batch (C2): ("Luis X", "Y", "") vs ("Luis", "X Y", ""). -/
def dfColision2 : List Persona :=
  extraer_registros_contenido ("lote2.json")
    (.arr [mkRegistro (.obj [("nombre", .str "Luis X"), ("primerApellido", .str "Y")]) [("id", .str "1")],
           mkRegistro (.obj [("nombre", .str "Luis"), ("primerApellido", .str "X Y")]) [("id", .str "2")]])

/-- A third collision batch (C5): ("Eva Z", "W", "") vs ("Eva", "Z W", ""). -/
def dfColision5 : List Persona :=
  extraer_registros_contenido ("lote5.json")
    (.arr [mkRegistro (.obj [("nombre", .str "Eva Z"), ("primerApellido", .str "W")]) [("id", .str "1")],
           mkRegistro (.obj [("nombre", .str "Eva"), ("primerApellido", .str "Z W")]) [("id", .str "2")]])

/-- Two records with the same name but distinct ids, in both insertion
orders (C3). -/
def regMismo1 : Json :=
  mkRegistro (.obj [("nombre", .str "Ana"), ("primerApellido", .str "Lopez")]) [("id", .str "1")]

def regMismo2 : Json :=
  mkRegistro (.obj [("nombre", .str "Ana"), ("primerApellido", .str "Lopez")]) [("id", .str "2")]

def dfOrden12 : List Persona :=
  extraer_registros_contenido ("lote3.json") (.arr [regMismo1, regMismo2])

def dfOrden21 : List Persona :=
  extraer_registros_contenido ("lote3.json") (.arr [regMismo2, regMismo1])

/-- A whole-tree accumulator whose first group (inserted first) has 2
occurrences and whose second group has 3 (C3). -/
def dpDosTres : DatosPersonas :=
  acumular [("Ana|Lopez|Garcia", ocurEj), ("Ana|Lopez|Garcia", ocurEj),
    ("Bob|Diaz|X", ocurEj), ("Bob|Diaz|X", ocurEj), ("Bob|Diaz|X", ocurEj)]

/-- A whole-tree accumulator with one duplicated key (C8). -/
def dpC8 : DatosPersonas := [("Ana|Lopez|Garcia", [ocurEj, ocurEj])]

/-- The report rows produced for `dpC8`. -/
def filasC8 : List FilaWT :=
  [{ nombre := "Ana", primerApellido := "Lopez", segundoApellido := "Garcia",
     cantidadOcurrencias := 2, ocurrenciaNumero := 1, id := .str "7",
     institucion := .str "SFP", fechaActualizacion := .str "2023",
     rutaArchivo := "dir/a.json" },
   { nombre := "Ana", primerApellido := "Lopez", segundoApellido := "Garcia",
     cantidadOcurrencias := 2, ocurrenciaNumero := 2, id := .str "7",
     institucion := .str "SFP", fechaActualizacion := .str "2023",
     rutaArchivo := "dir/a.json" }]

/-- A duplicated group whose key was built from a second surname
containing the reserved separator (C9). -/
def dpMalaClave : DatosPersonas :=
  [(claveWT (.str "Ana") (.str "Lopez") (.str "Gar|cia"), [ocurEj, ocurEj])]

/-- The rows extracted from the C2 collision batch. -/
def personaLuisX : Persona :=
  { id := .str "1", nombre := .str "Luis X", primerApellido := .str "Y",
    segundoApellido := .str "", nombreCompleto := "Luis X Y ",
    institucion := .str "Sin institución", fechaActualizacion := .str "Sin fecha",
    tipoDeclaracion := .str "Sin tipo", rutaArchivo := "lote2.json" }

def personaLuisXY : Persona :=
  { id := .str "2", nombre := .str "Luis", primerApellido := .str "X Y",
    segundoApellido := .str "", nombreCompleto := "Luis X Y ",
    institucion := .str "Sin institución", fechaActualizacion := .str "Sin fecha",
    tipoDeclaracion := .str "Sin tipo", rutaArchivo := "lote2.json" }

/-- The rows extracted from `regMismo1`/`regMismo2` (C3). -/
def personaMismo1 : Persona :=
  { id := .str "1", nombre := .str "Ana", primerApellido := .str "Lopez",
    segundoApellido := .str "", nombreCompleto := "Ana Lopez ",
    institucion := .str "Sin institución", fechaActualizacion := .str "Sin fecha",
    tipoDeclaracion := .str "Sin tipo", rutaArchivo := "lote3.json" }

def personaMismo2 : Persona :=
  { id := .str "2", nombre := .str "Ana", primerApellido := .str "Lopez",
    segundoApellido := .str "", nombreCompleto := "Ana Lopez ",
    institucion := .str "Sin institución", fechaActualizacion := .str "Sin fecha",
    tipoDeclaracion := .str "Sin tipo", rutaArchivo := "lote3.json" }

/-! ## Order lemmas for the sort -/

theorem pyLeChars_total : ∀ a b : List Char, pyLeChars a b = true ∨ pyLeChars b a = true
  | [], _ => .inl rfl
  | _ :: _, [] => .inr rfl
  | a :: as, b :: bs => by
    by_cases h : a = b
    · subst h
      simpa [pyLeChars] using pyLeChars_total as bs
    · rcases lt_trichotomy a b with hl | he | hg
      · left; simp [pyLeChars, h, hl]
      · exact absurd he h
      · right; simp [pyLeChars, Ne.symm h, hg]

theorem pyLeChars_trans : ∀ a b c : List Char,
    pyLeChars a b = true → pyLeChars b c = true → pyLeChars a c = true
  | [], _, _, _, _ => rfl
  | a :: as, [], _, h1, _ => by simp [pyLeChars] at h1
  | a :: as, b :: bs, [], _, h2 => by simp [pyLeChars] at h2
  | a :: as, b :: bs, c :: cs, h1, h2 => by
    by_cases hab : a = b
    · subst hab
      by_cases hac : a = c
      · subst hac
        simp only [pyLeChars, if_pos rfl] at h1 h2 ⊢
        exact pyLeChars_trans as bs cs h1 h2
      · simp only [pyLeChars, if_pos rfl] at h1
        simp only [pyLeChars, if_neg hac] at h2 ⊢
        exact h2
    · simp only [pyLeChars, if_neg hab, decide_eq_true_eq] at h1
      by_cases hbc : b = c
      · subst hbc
        simp [pyLeChars, hab, h1]
      · simp only [pyLeChars, if_neg hbc, decide_eq_true_eq] at h2
        have hac : a < c := lt_trans h1 h2
        simp [pyLeChars, ne_of_lt hac, hac]

theorem pyLeChars_antisymm : ∀ a b : List Char,
    pyLeChars a b = true → pyLeChars b a = true → a = b
  | [], [], _, _ => rfl
  | [], _ :: _, _, h2 => by simp [pyLeChars] at h2
  | _ :: _, [], h1, _ => by simp [pyLeChars] at h1
  | a :: as, b :: bs, h1, h2 => by
    by_cases hab : a = b
    · subst hab
      simp only [pyLeChars, if_pos rfl] at h1 h2
      exact congrArg (a :: ·) (pyLeChars_antisymm as bs h1 h2)
    · simp only [pyLeChars, if_neg hab, decide_eq_true_eq] at h1
      simp only [pyLeChars, if_neg (Ne.symm hab), decide_eq_true_eq] at h2
      exact absurd h1 (lt_asymm h2)

theorem pyLeStr_total (s t : String) : pyLeStr s t = true ∨ pyLeStr t s = true :=
  pyLeChars_total s.toList t.toList

theorem pyLeStr_trans {s t u : String} (h1 : pyLeStr s t = true) (h2 : pyLeStr t u = true) :
    pyLeStr s u = true :=
  pyLeChars_trans s.toList t.toList u.toList h1 h2

theorem pyLeStr_antisymm {s t : String} (h1 : pyLeStr s t = true) (h2 : pyLeStr t s = true) :
    s = t :=
  String.ext (pyLeChars_antisymm s.toList t.toList h1 h2)

instance : IsTrans (Nat × String) ordenClaves := by
  constructor
  rintro ⟨xc, xs⟩ ⟨yc, ys⟩ ⟨zc, zs⟩ (h1 | ⟨h1e, h1s⟩) (h2 | ⟨h2e, h2s⟩)
  · exact .inl (lt_trans h2 h1)
  · exact .inl (h2e ▸ h1)
  · exact .inl (h1e ▸ h2)
  · exact .inr ⟨h1e.trans h2e, pyLeStr_trans h1s h2s⟩

instance : IsAntisymm (Nat × String) ordenClaves := by
  constructor
  rintro ⟨xc, xs⟩ ⟨yc, ys⟩ (h1 | ⟨h1e, h1s⟩) (h2 | ⟨h2e, h2s⟩)
  · exact absurd h1 (lt_asymm h2)
  · exact absurd h1 (h2e ▸ lt_irrefl _)
  · exact absurd h2 (h1e ▸ lt_irrefl _)
  · exact Prod.ext h1e (pyLeStr_antisymm h1s h2s)

instance : IsTotal (Nat × String) ordenClaves := by
  constructor
  rintro ⟨xc, xs⟩ ⟨yc, ys⟩
  rcases lt_trichotomy xc yc with h | h | h
  · exact .inr (.inl h)
  · rcases pyLeStr_total xs ys with hs | hs
    · exact .inl (.inr ⟨h, hs⟩)
    · exact .inr (.inr ⟨h.symm, hs⟩)
  · exact .inl (.inl h)

instance : IsTrans Fila2 ordenFilas :=
  ⟨fun _ _ _ h1 h2 => Trans.trans (r := ordenClaves) h1 h2⟩

instance : IsTotal Fila2 ordenFilas :=
  ⟨fun a b => IsTotal.total (r := ordenClaves) (claveOrden a) (claveOrden b)⟩

/-! ## Lemmas about `splitChar` -/

theorem splitChar_exists_cons (sep : Char) :
    ∀ l : List Char, ∃ p ps, splitChar sep l = p :: ps
  | [] => ⟨[], [], rfl⟩
  | c :: cs => by
    by_cases h : c = sep
    · exact ⟨[], splitChar sep cs, by simp [splitChar, h]⟩
    · obtain ⟨p, ps, he⟩ := splitChar_exists_cons sep cs
      exact ⟨c :: p, ps, by simp [splitChar, h, he]⟩

theorem splitChar_length (sep : Char) :
    ∀ l : List Char, (splitChar sep l).length = l.count sep + 1
  | [] => rfl
  | c :: cs => by
    by_cases h : c = sep
    · simp [splitChar, h, List.count_cons, splitChar_length sep cs]
    · obtain ⟨p, ps, he⟩ := splitChar_exists_cons sep cs
      have hl := splitChar_length sep cs
      rw [he] at hl
      simp [splitChar, h, he, List.count_cons, Ne.symm h, ← hl]

theorem splitChar_of_not_mem (sep : Char) :
    ∀ {l : List Char}, sep ∉ l → splitChar sep l = [l]
  | [], _ => rfl
  | c :: cs, h => by
    have hc : c ≠ sep := fun he => h (he ▸ List.mem_cons_self c cs)
    have hcs : sep ∉ cs := fun hm => h (List.mem_cons_of_mem c hm)
    simp [splitChar, hc, splitChar_of_not_mem sep hcs]

theorem splitChar_append (sep : Char) :
    ∀ {xs : List Char} (ys : List Char), sep ∉ xs →
      splitChar sep (xs ++ sep :: ys) = xs :: splitChar sep ys
  | [], ys, _ => by simp [splitChar]
  | c :: xs, ys, h => by
    have hc : c ≠ sep := fun he => h (he ▸ List.mem_cons_self c xs)
    have hxs : sep ∉ xs := fun hm => h (List.mem_cons_of_mem c hm)
    simp [splitChar, hc, splitChar_append sep ys hxs]

theorem splitChar_join3 (sep : Char) {a b c : List Char}
    (ha : sep ∉ a) (hb : sep ∉ b) (hc : sep ∉ c) :
    splitChar sep (a ++ sep :: (b ++ sep :: c)) = [a, b, c] := by
  rw [splitChar_append sep _ ha, splitChar_append sep _ hb, splitChar_of_not_mem sep hc]

theorem join3_inj (sep : Char) {a b c a' b' c' : List Char}
    (ha : sep ∉ a) (hb : sep ∉ b) (hc : sep ∉ c)
    (ha' : sep ∉ a') (hb' : sep ∉ b') (hc' : sep ∉ c')
    (h : a ++ sep :: (b ++ sep :: c) = a' ++ sep :: (b' ++ sep :: c')) :
    a = a' ∧ b = b' ∧ c = c' := by
  have := (splitChar_join3 sep ha hb hc).symm.trans
    ((congrArg (splitChar sep) h).trans (splitChar_join3 sep ha' hb' hc'))
  simpa using this

/-! ## Lemmas about key splitting and the report rows -/

theorem dividirClave_eq_none {k : String}
    (h : (splitChar '|' k.toList).length ≠ 3) : dividirClave k = none := by
  unfold dividirClave
  rcases he : splitChar '|' k.toList with _ | ⟨a, _ | ⟨b, _ | ⟨c, _ | d⟩⟩⟩ <;> simp_all

theorem claveWT_toList (n pa sa : Json) :
    (claveWT n pa sa).toList =
      (pyStr n).toList ++ '|' :: ((pyStr pa).toList ++ '|' :: (pyStr sa).toList) := by
  have h : ∀ s t : String, (s ++ t).toList = s.toList ++ t.toList := by
    intro s t; simp [String.toList]
  simp [claveWT, h, List.append_assoc]

theorem dividirClave_claveWT_none {n pa sa : Json}
    (h : '|' ∈ (pyStr sa).toList) : dividirClave (claveWT n pa sa) = none := by
  apply dividirClave_eq_none
  rw [splitChar_length, claveWT_toList]
  have h1 : 0 < ((pyStr sa).data).count '|' := List.count_pos_iff.mpr h
  simp [List.count_append, List.count_cons]
  omega

theorem dividirClave_claveWT_sep_free {n pa sa : Json}
    (h1 : '|' ∉ (pyStr n).toList) (h2 : '|' ∉ (pyStr pa).toList)
    (h3 : '|' ∉ (pyStr sa).toList) :
    dividirClave (claveWT n pa sa) = some (pyStr n, pyStr pa, pyStr sa) := by
  unfold dividirClave
  rw [claveWT_toList, splitChar_join3 '|' h1 h2 h3]
  simp [String.ext_iff]

theorem map_fst_enumFrom {α : Type _} (n : Nat) (l : List α) :
    (l.enumFrom n).map Prod.fst = List.range' n l.length := by
  induction l generalizing n <;> simp_all [List.enumFrom, List.range']

theorem map_snd_enumFrom {α : Type _} (n : Nat) (l : List α) :
    (l.enumFrom n).map Prod.snd = l := by
  induction l generalizing n <;> simp_all [List.enumFrom]

theorem filasGrupo_eq {k : String} {g : List OcurWT} {n pa sa : String}
    (hd : dividirClave k = some (n, pa, sa)) :
    filasGrupo (k, g) = some ((g.enumFrom 1).map fun io =>
      { nombre := n, primerApellido := pa, segundoApellido := sa,
        cantidadOcurrencias := g.length, ocurrenciaNumero := io.1,
        id := io.2.id, institucion := io.2.institucion,
        fechaActualizacion := io.2.fechaActualizacion,
        rutaArchivo := io.2.rutaArchivo }) := by
  simp [filasGrupo, hd]

theorem filasGrupo_numeros {k : String} {g : List OcurWT} {b : List FilaWT}
    (h : filasGrupo (k, g) = some b) :
    (b.map fun r => r.ocurrenciaNumero) = List.range' 1 g.length ∧
      (b.map fun r => r.id) = (g.map fun o => o.id) ∧
      ∀ r ∈ b, r.cantidadOcurrencias = g.length := by
  rcases hd : dividirClave k with _ | ⟨⟨n, pa, sa⟩⟩
  · simp [filasGrupo, hd] at h
  · rw [filasGrupo_eq hd] at h
    obtain rfl : _ = b := Option.some.inj h
    refine ⟨?_, ?_, ?_⟩
    · rw [List.map_map]
      exact map_fst_enumFrom 1 g
    · rw [List.map_map]
      rw [show ((fun r : FilaWT => r.id) ∘ fun io : Nat × OcurWT =>
            ({ nombre := n, primerApellido := pa, segundoApellido := sa,
               cantidadOcurrencias := g.length, ocurrenciaNumero := io.1,
               id := io.2.id, institucion := io.2.institucion,
               fechaActualizacion := io.2.fechaActualizacion,
               rutaArchivo := io.2.rutaArchivo } : FilaWT)) =
          ((fun o : OcurWT => o.id) ∘ Prod.snd) from rfl]
      rw [← List.map_map, map_snd_enumFrom]
    · intro r hr
      obtain ⟨io, _, rfl⟩ := List.mem_map.mp hr
      rfl

theorem filasDuplicados_decomp :
    ∀ {l : List (String × List OcurWT)} {rows : List FilaWT} {kv : String × List OcurWT},
      filasDuplicados l = some rows → kv ∈ l →
      ∃ b pre post, filasGrupo kv = some b ∧ rows = pre ++ (b ++ post)
  | [], _, _, _, hm => absurd hm (List.not_mem_nil _)
  | hd :: tl, rows, kv, h, hm => by
    unfold filasDuplicados at h
    rcases hb : filasGrupo hd with _ | b0
    · rw [hb] at h; exact absurd h (by simp)
    · rw [hb] at h
      rcases ht : filasDuplicados tl with _ | rest
      · rw [ht] at h; exact absurd h (by simp)
      · rw [ht] at h
        obtain rfl : b0 ++ rest = rows := Option.some.inj h
        rcases List.mem_cons.mp hm with rfl | hm'
        · exact ⟨b0, [], rest, hb, rfl⟩
        · obtain ⟨b, pre, post, hbg, hre⟩ := filasDuplicados_decomp ht hm'
          exact ⟨b, b0 ++ pre, post, hbg, by rw [hre, List.append_assoc]⟩

theorem filasDuplicados_none :
    ∀ {l : List (String × List OcurWT)} {kv : String × List OcurWT},
      kv ∈ l → filasGrupo kv = none → filasDuplicados l = none
  | hd :: tl, kv, hm, hf => by
    unfold filasDuplicados
    rcases List.mem_cons.mp hm with rfl | hm'
    · rw [hf]
    · rcases hb : filasGrupo hd with _ | b0
      · rfl
      · rw [filasDuplicados_none hm' hf]
        rfl

theorem filasDuplicados_forall :
    ∀ {l : List (String × List OcurWT)} {rows : List FilaWT},
      filasDuplicados l = some rows → ∀ r ∈ rows,
      ∃ kv ∈ l, ∃ b, filasGrupo kv = some b ∧ r ∈ b
  | [], rows, h, r, hr => by
    obtain rfl : ([] : List FilaWT) = rows := Option.some.inj h
    exact absurd hr (List.not_mem_nil r)
  | hd :: tl, rows, h, r, hr => by
    unfold filasDuplicados at h
    rcases hb : filasGrupo hd with _ | b0
    · rw [hb] at h; exact absurd h (by simp)
    · rw [hb] at h
      rcases ht : filasDuplicados tl with _ | rest
      · rw [ht] at h; exact absurd h (by simp)
      · rw [ht] at h
        obtain rfl : b0 ++ rest = rows := Option.some.inj h
        rcases List.mem_append.mp hr with hr0 | hr1
        · exact ⟨hd, List.mem_cons_self hd tl, b0, hb, hr0⟩
        · obtain ⟨kv, hkv, b, hbg, hrb⟩ := filasDuplicados_forall ht r hr1
          exact ⟨kv, List.mem_cons_of_mem hd hkv, b, hbg, hrb⟩

/-! ## Lemmas about the whole-tree accumulator -/

/-- The key column of the accumulator. -/
def llaves (dp : DatosPersonas) : List String :=
  dp.map Prod.fst

/-- The group stored under a key (the list `datos_personas[k]`). -/
def grupoDe (dp : DatosPersonas) (k : String) : List OcurWT :=
  ((dp.find? fun kv => kv.1 == k).map Prod.snd).getD []

theorem llaves_agregar_nodup {dp : DatosPersonas} {k : String} {e : OcurWT}
    (h : (llaves dp).Nodup) : (llaves (agregar dp k e)).Nodup := by
  unfold agregar
  by_cases ha : dp.any fun kv => kv.1 == k
  · rw [if_pos ha]
    have he : llaves (dp.map fun kv => if kv.1 == k then (kv.1, kv.2 ++ [e]) else kv) = llaves dp := by
      unfold llaves
      rw [List.map_map]
      apply List.map_congr_left
      intro kv _
      by_cases hk : kv.1 = k <;> simp [hk]
    rw [he]
    exact h
  · rw [if_neg ha]
    have hk : k ∉ llaves dp := by
      intro hm
      obtain ⟨kv, hkv, hfst⟩ := List.mem_map.mp hm
      exact ha (List.any_eq_true.mpr ⟨kv, hkv, by simp [hfst]⟩)
    unfold llaves
    rw [List.map_append]
    simp only [List.map_cons, List.map_nil]
    refine List.nodup_append.mpr ⟨h, List.nodup_singleton k, fun a ha' hb => ?_⟩
    rw [List.mem_singleton] at hb
    exact hk (hb ▸ ha')

theorem grupoDe_agregar_self (dp : DatosPersonas) (k : String) (e : OcurWT) :
    grupoDe (agregar dp k e) k = grupoDe dp k ++ [e] := by
  unfold agregar
  by_cases ha : dp.any fun kv => kv.1 == k
  · rw [if_pos ha]
    obtain ⟨kv0, hkv0, hk0⟩ := List.any_eq_true.mp ha
    unfold grupoDe
    rw [List.find?_map]
    have hcomp : ((fun kv : String × List OcurWT => kv.1 == k) ∘
        fun kv : String × List OcurWT => if kv.1 == k then (kv.1, kv.2 ++ [e]) else kv) =
        fun kv : String × List OcurWT => kv.1 == k := by
      funext kv
      by_cases hk : kv.1 = k <;> simp [hk]
    rw [hcomp]
    rcases hf : dp.find? fun kv => kv.1 == k with _ | kv1
    · exact absurd (List.find?_eq_none.mp hf kv0 hkv0) (by simp_all)
    · have hk1 := List.find?_some hf
      simp only [beq_iff_eq] at hk1
      rw [hf]
      simp [hk1]
  · rw [if_neg ha]
    unfold grupoDe
    rw [List.find?_append]
    have hf : (dp.find? fun kv => kv.1 == k) = none := by
      rw [List.find?_eq_none]
      intro kv hkv
      simp only [List.any_eq_true, not_exists, not_and] at ha
      simp [ha kv hkv]
    rw [hf]
    simp

theorem grupoDe_agregar_other {dp : DatosPersonas} {k k' : String} (e : OcurWT)
    (h : k' ≠ k) : grupoDe (agregar dp k e) k' = grupoDe dp k' := by
  unfold agregar
  by_cases ha : dp.any fun kv => kv.1 == k
  · rw [if_pos ha]
    unfold grupoDe
    rw [List.find?_map]
    have hcomp : ((fun kv : String × List OcurWT => kv.1 == k') ∘
        fun kv : String × List OcurWT => if kv.1 == k then (kv.1, kv.2 ++ [e]) else kv) =
        fun kv : String × List OcurWT => kv.1 == k' := by
      funext kv
      by_cases hk : kv.1 = k <;> simp [hk, Ne.symm h]
    rw [hcomp]
    rcases hf : dp.find? fun kv => kv.1 == k' with _ | kv1
    · rw [hf]; rfl
    · have hk1 := List.find?_some hf
      simp only [beq_iff_eq] at hk1
      have hne : ¬ kv1.1 = k := fun he => h (hk1.symm.trans he)
      rw [hf]
      simp [hne]
  · rw [if_neg ha]
    unfold grupoDe
    rw [List.find?_append]
    rcases hf : dp.find? fun kv => kv.1 == k' with _ | kv1 <;>
      simp [hf, Option.or, Ne.symm h]

theorem grupoDe_of_mem :
    ∀ {dp : DatosPersonas} {k : String} {g : List OcurWT},
      (llaves dp).Nodup → (k, g) ∈ dp → grupoDe dp k = g
  | [], _, _, _, hm => absurd hm (List.not_mem_nil _)
  | kv :: dp, k, g, hn, hm => by
    rcases List.mem_cons.mp hm with rfl | hm'
    · unfold grupoDe
      rw [List.find?_cons_of_pos _ (by simp)]
      rfl
    · have hk : k ∈ llaves dp := List.mem_map.mpr ⟨(k, g), hm', rfl⟩
      have hne : ¬ (kv.1 == k) = true := by
        simp only [beq_iff_eq]
        intro he
        rw [llaves, List.map_cons, List.nodup_cons] at hn
        exact hn.1 (he ▸ hk)
      unfold grupoDe
      have hstep : List.find? (fun kv => kv.1 == k) (kv :: dp) =
          List.find? (fun kv => kv.1 == k) dp :=
        List.find?_cons_of_neg _ hne
      rw [hstep]
      have hn' : (llaves dp).Nodup := by
        rw [llaves, List.map_cons, List.nodup_cons] at hn
        exact hn.2
      exact grupoDe_of_mem hn' hm'

theorem acumular_paso (l : List (String × OcurWT)) :
    ∀ (dp : DatosPersonas) (k : String),
      grupoDe (l.foldl (fun dp ke => agregar dp ke.1 ke.2) dp) k =
        grupoDe dp k ++ (l.filter fun ke => ke.1 == k).map Prod.snd := by
  induction l with
  | nil => intro dp k; simp
  | cons ke l ih =>
    intro dp k
    rw [List.foldl_cons, ih]
    by_cases hk : ke.1 = k
    · rw [List.filter_cons_of_pos (by simp [hk]), ← hk, grupoDe_agregar_self]
      simp
    · rw [List.filter_cons_of_neg (by simp [hk]), grupoDe_agregar_other ke.2 fun he => hk he.symm]

theorem acumular_nodup (l : List (String × OcurWT)) : (llaves (acumular l)).Nodup := by
  unfold acumular
  have hgen : ∀ (dp : DatosPersonas), (llaves dp).Nodup →
      (llaves (l.foldl (fun dp ke => agregar dp ke.1 ke.2) dp)).Nodup := by
    induction l with
    | nil => exact fun dp h => h
    | cons ke l ih => exact fun dp h => ih _ (llaves_agregar_nodup h)
  exact hgen [] (by simp [llaves])

theorem acumular_grupo {l : List (String × OcurWT)} {k : String} {g : List OcurWT}
    (hm : (k, g) ∈ acumular l) :
    g = (l.filter fun ke => ke.1 == k).map Prod.snd ∧
      g.length = l.countP fun ke => ke.1 == k := by
  have h1 : grupoDe (acumular l) k = g := grupoDe_of_mem (acumular_nodup l) hm
  have h2 := acumular_paso l [] k
  unfold acumular at h1
  rw [h1] at h2
  have hg : g = (l.filter fun ke => ke.1 == k).map Prod.snd := by
    simpa [grupoDe] using h2
  refine ⟨hg, ?_⟩
  rw [hg, List.length_map, List.countP_eq_length_filter]

/-! ## Lemmas about the analyzer -/

theorem analizar_mem {df : List Persona} {r : Fila2}
    (h : r ∈ (analizar_duplicados df).1) :
    r.cantidadOcurrencias = cuentaNombre df r.persona.nombreCompleto ∧
      2 ≤ cuentaNombre df r.persona.nombreCompleto := by
  by_cases h0 : df.isEmpty
  · simp [analizar_duplicados, h0] at h
  · by_cases h1 : (duplicadosDe df).isEmpty
    · simp [analizar_duplicados, h0, h1] at h
    · simp only [analizar_duplicados, h0, h1, if_neg, Bool.false_eq_true] at h
      have hp : r ∈ conConteo df :=
        ((List.perm_insertionSort ordenFilas (conConteo df)).mem_iff).mp h
      obtain ⟨p, hpdup, rfl⟩ := List.mem_map.mp hp
      have hf := List.mem_filter.mp hpdup
      refine ⟨rfl, ?_⟩
      simpa using hf.2

theorem analizar_sorted (df : List Persona) :
    List.Sorted ordenFilas (analizar_duplicados df).1 := by
  by_cases h0 : df.isEmpty
  · simp [analizar_duplicados, h0]
  · by_cases h1 : (duplicadosDe df).isEmpty
    · simp [analizar_duplicados, h0, h1]
    · simp only [analizar_duplicados, h0, h1, if_neg, Bool.false_eq_true]
      exact List.sorted_insertionSort ordenFilas (conConteo df)

theorem cuentaNombre_perm {df df' : List Persona} (hp : df.Perm df') (nc : String) :
    cuentaNombre df nc = cuentaNombre df' nc :=
  hp.countP_eq _

theorem duplicadosDe_perm {df df' : List Persona} (hp : df.Perm df') :
    (duplicadosDe df).Perm (duplicadosDe df') := by
  unfold duplicadosDe
  have he : (df'.filter fun p => 2 ≤ cuentaNombre df' p.nombreCompleto) =
      df'.filter fun p => 2 ≤ cuentaNombre df p.nombreCompleto := by
    apply List.filter_congr
    intro p _
    rw [cuentaNombre_perm hp]
  rw [he]
  exact hp.filter _

theorem conConteo_perm {df df' : List Persona} (hp : df.Perm df') :
    (conConteo df).Perm (conConteo df') := by
  unfold conConteo
  have he : ((duplicadosDe df').map fun p => Fila2.mk p (cuentaNombre df' p.nombreCompleto)) =
      (duplicadosDe df').map fun p => Fila2.mk p (cuentaNombre df p.nombreCompleto) := by
    apply List.map_congr_left
    intro p _
    rw [cuentaNombre_perm hp]
  rw [he]
  exact (duplicadosDe_perm hp).map _

theorem analizar_claves_perm {df df' : List Persona} (hp : df.Perm df') :
    ((analizar_duplicados df).1.map claveOrden) =
      ((analizar_duplicados df').1.map claveOrden) := by
  have h0 : df.isEmpty = df'.isEmpty := by
    have := hp.length_eq
    cases df <;> cases df' <;> simp_all [List.isEmpty]
  have h1 : (duplicadosDe df).isEmpty = (duplicadosDe df').isEmpty := by
    have := (duplicadosDe_perm hp).length_eq
    rcases hd : duplicadosDe df with _ | _ <;> rcases hd' : duplicadosDe df' with _ | _ <;>
      simp_all [List.isEmpty]
  by_cases he : df.isEmpty
  · simp [analizar_duplicados, he, ← h0]
  · by_cases he1 : (duplicadosDe df).isEmpty
    · simp [analizar_duplicados, he, he1, ← h0, ← h1]
    · have hperm : ((analizar_duplicados df).1.map claveOrden).Perm
          ((analizar_duplicados df').1.map claveOrden) := by
        apply List.Perm.map
        simp only [analizar_duplicados, he, he1, ← h0, ← h1, if_neg, Bool.false_eq_true]
        exact (List.perm_insertionSort ordenFilas (conConteo df)).trans
          ((conConteo_perm hp).trans
            (List.perm_insertionSort ordenFilas (conConteo df')).symm)
      have hs : List.Sorted ordenClaves ((analizar_duplicados df).1.map claveOrden) :=
        List.Pairwise.map claveOrden (fun _ _ hab => hab) (analizar_sorted df)
      have hs' : List.Sorted ordenClaves ((analizar_duplicados df').1.map claveOrden) :=
        List.Pairwise.map claveOrden (fun _ _ hab => hab) (analizar_sorted df')
      exact List.eq_of_perm_of_sorted hperm hs hs'

/-! ## Inversion lemmas for the extractors -/

theorem extraer_nombreCompleto {reg : Json} {p : Persona}
    (h : extraer_datos_persona reg = some p) :
    p.nombreCompleto =
      pyStr p.nombre ++ " " ++ pyStr p.primerApellido ++ " " ++ pyStr p.segundoApellido := by
  rcases reg with _ | _ | _ | _ | _ | r
  iterate 5 exact Option.noConfusion h
  simp only [extraer_datos_persona] at h
  repeat split at h
  all_goals try exact Option.noConfusion h
  obtain rfl : _ = p := Option.some.inj h
  rfl

theorem procesar_registro_inv {ruta : String} {reg : Json} {k : String} {e : OcurWT}
    (h : procesar_registro ruta reg = some (k, e)) :
    k = claveWT e.nombre e.primerApellido e.segundoApellido ∧
      e.nombre.truthy = true ∧ e.primerApellido.truthy = true := by
  rcases reg with _ | _ | _ | _ | _ | r
  iterate 5 exact Option.noConfusion h
  simp only [procesar_registro] at h
  repeat split at h
  all_goals try exact Option.noConfusion h
  obtain ⟨rfl, rfl⟩ := Prod.mk.inj (Option.some.inj h)
  refine ⟨rfl, ?_, ?_⟩
  · exact (Bool.and_eq_true_iff.mp (by assumption)).1
  · exact (Bool.and_eq_true_iff.mp (by assumption)).2

theorem extraer_eq_some {r d sp g m : List (String × Json)}
    (h1 : r.lookup ("declaracion") = some (.obj d))
    (h2 : d.lookup ("situacionPatrimonial") = some (.obj sp))
    (h3 : (sp.lookup ("datosGenerales")).getD (.obj []) = .obj g)
    (hT : (Json.obj g).truthy = true)
    (h4 : (r.lookup ("metadata")).getD (.obj []) = .obj m) :
    extraer_datos_persona (.obj r) = some
      { id := jGet r ("id") (.str "Sin ID")
        nombre := jGet g ("nombre") (.str "")
        primerApellido := jGet g ("primerApellido") (.str "")
        segundoApellido := jGet g ("segundoApellido") (.str "")
        nombreCompleto := pyStr (jGet g ("nombre") (.str "")) ++ " " ++
          pyStr (jGet g ("primerApellido") (.str "")) ++ " " ++
          pyStr (jGet g ("segundoApellido") (.str ""))
        institucion := jGet m ("institucion") (.str "Sin institución")
        fechaActualizacion := jGet m ("actualizacion") (.str "Sin fecha")
        tipoDeclaracion := jGet m ("tipo") (.str "Sin tipo")
        rutaArchivo := "" } := by
  simp [extraer_datos_persona, h1, h2, h3, h4, hT]

/-! ## Claim theorems -/

/-- C7: for every JSON object, extracting from the bare object yields
exactly the same records as extracting from the one-element array
containing it — in the whole-tree extractor (`procesar_archivo_json`)
and in the partitioned extractors (`leer_archivos_json_directorio` of
v2 and v3, whose per-file loop is `extraer_registros_contenido`);
both treat a bare dict as a one-element list. -/
theorem c7_objeto_igual_lista :
    (∀ (kvs : List (String × Json)) (ruta : String) (dp : DatosPersonas),
       procesar_archivo_json ruta (Json.obj kvs) dp =
         procesar_archivo_json ruta (Json.arr [Json.obj kvs]) dp) ∧
    (∀ (kvs : List (String × Json)) (ruta : String),
       extraer_registros_contenido ruta (Json.obj kvs) =
         extraer_registros_contenido ruta (Json.arr [Json.obj kvs])) :=
  ⟨fun _ _ _ => rfl, fun _ _ => rfl⟩

/-- C10: in the partitioned extractor, a record whose
`declaracion → situacionPatrimonial → datosGenerales` path is present
with an empty object is skipped exactly like one where
`datosGenerales` is absent (the `if datos_generales:` truthiness test
rejects the empty dict), producing no Person-Record. -/
theorem c10_datosGenerales_vacio :
    (∀ (r d sp : List (String × Json)),
       r.lookup ("declaracion") = some (.obj d) →
       d.lookup ("situacionPatrimonial") = some (.obj sp) →
       sp.lookup ("datosGenerales") = some (.obj []) →
       extraer_datos_persona (.obj r) = none) ∧
    (∀ (r d sp : List (String × Json)),
       r.lookup ("declaracion") = some (.obj d) →
       d.lookup ("situacionPatrimonial") = some (.obj sp) →
       sp.lookup ("datosGenerales") = none →
       extraer_datos_persona (.obj r) = none) := by
  constructor <;> intro r d sp h1 h2 h3 <;>
    simp [extraer_datos_persona, h1, h2, h3, Json.truthy]

/-- C10 witness: a concrete record with an empty `datosGenerales` and a
concrete record without `datosGenerales`, both skipped. -/
theorem c10_testigo :
    extraer_datos_persona (.obj [("declaracion", .obj [("situacionPatrimonial",
      .obj [("datosGenerales", .obj [])])])]) = none ∧
    extraer_datos_persona (.obj [("declaracion", .obj [("situacionPatrimonial",
      .obj [("otro", .num 1)])])]) = none :=
  ⟨c10_datosGenerales_vacio.1 _ [("situacionPatrimonial", .obj [("datosGenerales", .obj [])])]
      [("datosGenerales", .obj [])] rfl rfl rfl,
   c10_datosGenerales_vacio.2 _ [("situacionPatrimonial", .obj [("otro", .num 1)])]
      [("otro", .num 1)] rfl rfl rfl⟩

/-- C6: a malformed element inside a JSON array is skipped without
aborting the file: deleting it from the input leaves the extraction of
the other elements unchanged (whole-tree and partitioned loops), and a
file of two valid elements around one malformed element yields exactly
the two Person-Records of the valid elements.  No exception escapes:
both loops are total functions of the file content. -/
theorem c6_elemento_malformado_saltado :
    (∀ (ruta : String) (dp : DatosPersonas) (pre post : List Json) (m : Json),
       procesar_registro ruta m = none →
       procesar_archivo_json ruta (.arr (pre ++ m :: post)) dp =
         procesar_archivo_json ruta (.arr (pre ++ post)) dp) ∧
    (∀ (ruta : String) (pre post : List Json) (m : Json),
       extraer_datos_persona m = none →
       extraer_registros_contenido ruta (.arr (pre ++ m :: post)) =
         extraer_registros_contenido ruta (.arr (pre ++ post))) ∧
    (∀ (ruta : String) (a m b : Json) (ra rb : Persona),
       extraer_datos_persona a = some ra → extraer_datos_persona m = none →
       extraer_datos_persona b = some rb →
       extraer_registros_contenido ruta (.arr [a, m, b]) =
         [{ ra with rutaArchivo := ruta }, { rb with rutaArchivo := ruta }]) := by
  refine ⟨?_, ?_, ?_⟩
  · intro ruta dp pre post m hm
    simp only [procesar_archivo_json, elemsOf, List.foldl_append, List.foldl_cons, hm]
  · intro ruta pre post m hm
    simp only [extraer_registros_contenido, elemsOf, List.filterMap_append,
      List.filterMap_cons, hm, Option.map_none']
  · intro ruta a m b ra rb ha hm hb
    simp [extraer_registros_contenido, elemsOf, List.filterMap_cons, ha, hm, hb]

/-- C6 witness: the file `[regAna, 3, regBob]` (the number `3` has no
declaration shape) extracts exactly the two valid Person-Records. -/
theorem c6_testigo :
    extraer_registros_contenido ("f.json") (.arr [regAna, .num 3, regBob]) =
      [{ personaAna with rutaArchivo := "f.json" },
       { personaBob with rutaArchivo := "f.json" }] :=
  c6_elemento_malformado_saltado.2.2 ("f.json") regAna (.num 3) regBob
    personaAna personaBob rfl rfl rfl

/-- C8: whenever the whole-tree report is produced, each duplicate
group of size N contributes a contiguous block of N rows whose
`ocurrenciaNumero` column is exactly 1..N, paired with the group's
stored occurrences in their original insertion order (the accumulator
appends at the end, `enumerate(ocurrencias, 1)` numbers in list
order), independently of any ordering of the rows by count. -/
theorem c8_numeracion_ocurrencias :
    ∀ (dp : DatosPersonas) (rows : List FilaWT) (k : String) (g : List OcurWT),
      generar_informe_duplicados dp = some rows → (k, g) ∈ dp → 1 < g.length →
      ∃ b pre post, filasGrupo (k, g) = some b ∧ rows = pre ++ (b ++ post) ∧
        (b.map fun r => r.ocurrenciaNumero) = List.range' 1 g.length ∧
        (b.map fun r => r.id) = (g.map fun o => o.id) ∧
        ∀ r ∈ b, r.cantidadOcurrencias = g.length := by
  intro dp rows k g hgen hm hlen
  simp only [generar_informe_duplicados] at hgen
  by_cases hemp : (dp.filter fun kv => 1 < kv.2.length).isEmpty
  · rw [if_pos hemp] at hgen
    exact Option.noConfusion hgen
  · rw [if_neg hemp] at hgen
    have hmf : (k, g) ∈ dp.filter fun kv => 1 < kv.2.length :=
      List.mem_filter.mpr ⟨hm, by simpa using hlen⟩
    obtain ⟨b, pre, post, hb, hrows⟩ := filasDuplicados_decomp hgen hmf
    obtain ⟨h1, h2, h3⟩ := filasGrupo_numeros hb
    exact ⟨b, pre, post, hb, hrows, h1, h2, h3⟩

/-- C8 witness: the report for `dpC8` numbers the two rows of the
duplicated group 1 and 2 in insertion order. -/
theorem c8_testigo :
    ∃ b pre post, filasGrupo ("Ana|Lopez|Garcia", [ocurEj, ocurEj]) = some b ∧
      filasC8 = pre ++ (b ++ post) ∧
      (b.map fun r => r.ocurrenciaNumero) = List.range' 1 2 ∧
      (b.map fun r => r.id) = ([ocurEj, ocurEj].map fun o => o.id) ∧
      ∀ r ∈ b, r.cantidadOcurrencias = 2 :=
  c8_numeracion_ocurrencias dpC8 filasC8 ("Ana|Lopez|Garcia") [ocurEj, ocurEj]
    rfl (List.mem_singleton.mpr rfl) (by decide)

/-- C9: a name field containing the reserved `'|'` separator poisons
the whole-tree report: the stored key then splits into more than three
pieces, the tuple unpacking in `generar_informe_duplicados` raises, the
handler swallows the exception and returns `False`, and no rows are
produced for any group of the batch. -/
theorem c9_separador_en_nombre_pierde_informe :
    (∀ (n pa sa : Json), '|' ∈ (pyStr sa).toList →
       dividirClave (claveWT n pa sa) = none) ∧
    (∀ (dp : DatosPersonas) (k : String) (g : List OcurWT),
       (k, g) ∈ dp → 1 < g.length → dividirClave k = none →
       generar_informe_duplicados dp = none) := by
  constructor
  · intro n pa sa h
    exact dividirClave_claveWT_none h
  · intro dp k g hm hlen hk
    simp only [generar_informe_duplicados]
    have hmf : (k, g) ∈ dp.filter fun kv => 1 < kv.2.length :=
      List.mem_filter.mpr ⟨hm, by simpa using hlen⟩
    have hne : ¬ (dp.filter fun kv => 1 < kv.2.length).isEmpty := by
      rcases he : dp.filter fun kv => 1 < kv.2.length with _ | _
      · rw [he] at hmf
        exact absurd hmf (List.not_mem_nil _)
      · simp [List.isEmpty, he]
    rw [if_neg hne]
    exact filasDuplicados_none hmf (by simp [filasGrupo, hk])

/-- C9 witness: one record of the duplicated group has second surname
"Gar|cia"; the entire report for the batch is lost. -/
theorem c9_testigo : generar_informe_duplicados dpMalaClave = none :=
  c9_separador_en_nombre_pierde_informe.2 dpMalaClave
    (claveWT (.str "Ana") (.str "Lopez") (.str "Gar|cia")) [ocurEj, ocurEj]
    (List.mem_singleton.mpr rfl) (by decide)
    (c9_separador_en_nombre_pierde_informe.1 (.str "Ana") (.str "Lopez") (.str "Gar|cia")
      (by decide))

/-- C4 counterexample: a record in which the whole
`declaracion → situacionPatrimonial → datosGenerales` path is present
(with `datosGenerales` the empty object, so all three name fields
resolve to the empty string) from which the partitioned extractor
emits no Person-Record — refuting "the partitioned extractor emits a
record whenever the nested structure is present, even with empty name
fields". -/
theorem c4_contraejemplo :
    extraer_datos_persona (mkRegistro (.obj []) []) = none ∧
    jGet [] ("nombre") (.str "") = .str "" ∧
    jGet [] ("primerApellido") (.str "") = .str "" ∧
    jGet [] ("segundoApellido") (.str "") = .str "" :=
  ⟨rfl, rfl, rfl, rfl⟩

/-- C4 amended: the whole-tree extractor emits a Person-Record only
when both resolved `nombre` and `primerApellido` are truthy (so a
record whose name fields all resolve to empty strings is never
emitted), while the partitioned extractor emits a record with empty
name fields whenever the nested path is present with a non-empty
(truthy) `datosGenerales` object and well-formed metadata — a
present-but-empty `datosGenerales` is skipped. -/
theorem c4_enmendada :
    (∀ (ruta : String) (reg : Json) (k : String) (e : OcurWT),
       procesar_registro ruta reg = some (k, e) →
       e.nombre.truthy = true ∧ e.primerApellido.truthy = true) ∧
    (∀ (g extra : List (String × Json)),
       g ≠ [] →
       jGet g ("nombre") (.str "") = .str "" →
       jGet g ("primerApellido") (.str "") = .str "" →
       jGet g ("segundoApellido") (.str "") = .str "" →
       (∀ v, extra.lookup ("metadata") = some v → ∃ m, v = Json.obj m) →
       ∃ p, extraer_datos_persona (mkRegistro (.obj g) extra) = some p ∧
         p.nombre = .str "" ∧ p.primerApellido = .str "" ∧
         p.segundoApellido = .str "" ∧ p.nombreCompleto = "  ") := by
  constructor
  · intro ruta reg k e h
    exact (procesar_registro_inv h).2
  · intro g extra hg hn hpa hsa hmeta
    have hT : (Json.obj g).truthy = true := by
      simp [Json.truthy, hg]
    have hlk : (mkRegistro (.obj g) extra) = Json.obj
        (("declaracion", .obj [("situacionPatrimonial", .obj [("datosGenerales", .obj g)])]) :: extra) := rfl
    have hdecl : (("declaracion", Json.obj [("situacionPatrimonial",
        .obj [("datosGenerales", .obj g)])]) :: extra).lookup ("declaracion") =
        some (.obj [("situacionPatrimonial", .obj [("datosGenerales", .obj g)])]) := by
      simp [List.lookup]
    have hmet : (("declaracion", Json.obj [("situacionPatrimonial",
        .obj [("datosGenerales", .obj g)])]) :: extra).lookup ("metadata") =
        extra.lookup ("metadata") := by
      simp [List.lookup]
    have h4 : ∃ m, ((("declaracion", Json.obj [("situacionPatrimonial",
        .obj [("datosGenerales", .obj g)])]) :: extra).lookup ("metadata")).getD (.obj []) =
        .obj m := by
      rw [hmet]
      rcases hml : extra.lookup ("metadata") with _ | v
      · exact ⟨[], rfl⟩
      · obtain ⟨m, rfl⟩ := hmeta v hml
        exact ⟨m, rfl⟩
    obtain ⟨m, h4⟩ := h4
    rw [hlk]
    refine ⟨_, extraer_eq_some hdecl rfl rfl hT h4, ?_, ?_, ?_, ?_⟩ <;>
      simp [hn, hpa, hsa, pyStr]

/-- C4 witness: `datosGenerales = {"nombre": ""}` is non-empty, so the
partitioned extractor emits a record with all-empty names, while the
whole-tree extractor never emits such a record. -/
theorem c4_testigo :
    (∃ p, extraer_datos_persona (mkRegistro (.obj [("nombre", .str "")]) []) = some p ∧
       p.nombre = .str "" ∧ p.primerApellido = .str "" ∧
       p.segundoApellido = .str "" ∧ p.nombreCompleto = "  ") :=
  c4_enmendada.2 [("nombre", .str "")] [] (by simp) rfl rfl rfl
    (fun v h => Option.noConfusion h)

theorem str_toList_append (s t : String) : (s ++ t).toList = s.toList ++ t.toList := by
  simp [String.toList]

theorem nombreCompleto_toList (x y z : String) :
    (x ++ " " ++ y ++ " " ++ z).toList =
      x.toList ++ ' ' :: (y.toList ++ ' ' :: z.toList) := by
  simp [str_toList_append, List.append_assoc]

theorem join3_str_inj {a b c a' b' c' : String}
    (ha : ' ' ∉ a.toList) (hb : ' ' ∉ b.toList) (hc : ' ' ∉ c.toList)
    (ha' : ' ' ∉ a'.toList) (hb' : ' ' ∉ b'.toList) (hc' : ' ' ∉ c'.toList)
    (hnc : a ++ " " ++ b ++ " " ++ c = a' ++ " " ++ b' ++ " " ++ c') :
    a = a' ∧ b = b' ∧ c = c' := by
  have h := congrArg String.toList hnc
  rw [nombreCompleto_toList, nombreCompleto_toList] at h
  obtain ⟨h1, h2, h3⟩ := join3_inj ' ' ha hb hc ha' hb' hc' h
  exact ⟨String.ext h1, String.ext h2, String.ext h3⟩

theorem claveWT_inj {n pa sa n' pa' sa' : Json}
    (h1 : '|' ∉ (pyStr n).toList) (h2 : '|' ∉ (pyStr pa).toList)
    (h3 : '|' ∉ (pyStr sa).toList)
    (h1' : '|' ∉ (pyStr n').toList) (h2' : '|' ∉ (pyStr pa').toList)
    (h3' : '|' ∉ (pyStr sa').toList)
    (h : claveWT n pa sa = claveWT n' pa' sa') :
    pyStr n = pyStr n' ∧ pyStr pa = pyStr pa' ∧ pyStr sa = pyStr sa' := by
  have ht := congrArg String.toList h
  rw [claveWT_toList, claveWT_toList] at ht
  obtain ⟨e1, e2, e3⟩ := join3_inj '|' h1 h2 h3 h1' h2' h3' ht
  exact ⟨String.ext e1, String.ext e2, String.ext e3⟩

/-- C1 counterexample: the records ("Ana B", "C", "") and
("Ana", "B C", "") have different name tuples but identical
space-joined full names, and the Analyzer groups them as the same
person (both come out as a duplicate pair with count 2) — refuting
"two records with different tuples are never placed in the same group,
even when name fields contain the separator". -/
theorem c1_contraejemplo :
    (dfColision.map claveIdentidad) = [("Ana B", "C", ""), ("Ana", "B C", "")] ∧
    (dfColision.map fun p => p.nombreCompleto) = ["Ana B C ", "Ana B C "] ∧
    ((analizar_duplicados dfColision).1.map fun r => r.cantidadOcurrencias) = [2, 2] ∧
    ((analizar_duplicados dfColision).1.map fun r => claveIdentidad r.persona) =
      [("Ana B", "C", ""), ("Ana", "B C", "")] := by
  decide

/-- C1 amended: grouping is by the joined key string, not by the
tuple: equal name tuples always land in the same group (equal
`nombreCompleto` in the partitioned extractors, equal `persona_key` in
the whole-tree extractor), and the converse — same group implies equal
tuples — holds exactly when the string-valued name fields are free of
the join separator (space, respectively `'|'`). -/
theorem c1_enmendada :
    (∀ (r1 r2 : Json) (p q : Persona),
       extraer_datos_persona r1 = some p → extraer_datos_persona r2 = some q →
       (p.nombre, p.primerApellido, p.segundoApellido) =
         (q.nombre, q.primerApellido, q.segundoApellido) →
       p.nombreCompleto = q.nombreCompleto) ∧
    (∀ (r1 r2 : Json) (p q : Persona) (a b c a' b' c' : String),
       extraer_datos_persona r1 = some p → extraer_datos_persona r2 = some q →
       p.nombre = .str a → p.primerApellido = .str b → p.segundoApellido = .str c →
       q.nombre = .str a' → q.primerApellido = .str b' → q.segundoApellido = .str c' →
       ' ' ∉ a.toList → ' ' ∉ b.toList → ' ' ∉ c.toList →
       ' ' ∉ a'.toList → ' ' ∉ b'.toList → ' ' ∉ c'.toList →
       p.nombreCompleto = q.nombreCompleto →
       (p.nombre, p.primerApellido, p.segundoApellido) =
         (q.nombre, q.primerApellido, q.segundoApellido)) ∧
    (∀ (ruta : String) (r1 r2 : Json) (k1 k2 : String) (e1 e2 : OcurWT),
       procesar_registro ruta r1 = some (k1, e1) →
       procesar_registro ruta r2 = some (k2, e2) →
       (e1.nombre, e1.primerApellido, e1.segundoApellido) =
         (e2.nombre, e2.primerApellido, e2.segundoApellido) →
       k1 = k2) ∧
    (∀ (ruta : String) (r1 r2 : Json) (k1 k2 : String) (e1 e2 : OcurWT)
       (a b c a' b' c' : String),
       procesar_registro ruta r1 = some (k1, e1) →
       procesar_registro ruta r2 = some (k2, e2) →
       e1.nombre = .str a → e1.primerApellido = .str b → e1.segundoApellido = .str c →
       e2.nombre = .str a' → e2.primerApellido = .str b' → e2.segundoApellido = .str c' →
       '|' ∉ a.toList → '|' ∉ b.toList → '|' ∉ c.toList →
       '|' ∉ a'.toList → '|' ∉ b'.toList → '|' ∉ c'.toList →
       k1 = k2 →
       (e1.nombre, e1.primerApellido, e1.segundoApellido) =
         (e2.nombre, e2.primerApellido, e2.segundoApellido)) := by
  refine ⟨?_, ?_, ?_, ?_⟩
  · intro r1 r2 p q hp hq htup
    obtain ⟨t1, t2, t3⟩ : p.nombre = q.nombre ∧ p.primerApellido = q.primerApellido ∧
        p.segundoApellido = q.segundoApellido := by
      simpa [Prod.ext_iff] using htup
    rw [extraer_nombreCompleto hp, extraer_nombreCompleto hq, t1, t2, t3]
  · intro r1 r2 p q a b c a' b' c' hp hq hn hpa hsa hn' hpa' hsa'
      ha hb hc ha' hb' hc' hnc
    rw [extraer_nombreCompleto hp, extraer_nombreCompleto hq,
      hn, hpa, hsa, hn', hpa', hsa'] at hnc
    obtain ⟨e1, e2, e3⟩ := join3_str_inj ha hb hc ha' hb' hc' hnc
    rw [hn, hpa, hsa, hn', hpa', hsa', e1, e2, e3]
  · intro ruta r1 r2 k1 k2 e1 e2 h1 h2 htup
    obtain ⟨t1, t2, t3⟩ : e1.nombre = e2.nombre ∧ e1.primerApellido = e2.primerApellido ∧
        e1.segundoApellido = e2.segundoApellido := by
      simpa [Prod.ext_iff] using htup
    rw [(procesar_registro_inv h1).1, (procesar_registro_inv h2).1, t1, t2, t3]
  · intro ruta r1 r2 k1 k2 e1 e2 a b c a' b' c' h1 h2 hn hpa hsa hn' hpa' hsa'
      ha hb hc ha' hb' hc' hk
    rw [(procesar_registro_inv h1).1, (procesar_registro_inv h2).1] at hk
    obtain ⟨e1', e2', e3'⟩ := claveWT_inj
      (by rw [hn]; exact ha) (by rw [hpa]; exact hb) (by rw [hsa]; exact hc)
      (by rw [hn']; exact ha') (by rw [hpa']; exact hb') (by rw [hsa']; exact hc') hk
    rw [hn, hn'] at e1'
    rw [hpa, hpa'] at e2'
    rw [hsa, hsa'] at e3'
    simp only [pyStr] at e1' e2' e3'
    rw [hn, hpa, hsa, hn', hpa', hsa', e1', e2', e3']

/-- C1 witness: two concrete extracted records with equal tuples get
equal grouping keys, and two concrete records with separator-free
names and equal full names have equal tuples. -/
theorem c1_testigo :
    ({ personaAna with rutaArchivo := "" } : Persona).nombreCompleto =
      personaAna.nombreCompleto ∧
    (personaAna.nombre, personaAna.primerApellido, personaAna.segundoApellido) =
      (personaAna.nombre, personaAna.primerApellido, personaAna.segundoApellido) :=
  ⟨c1_enmendada.1 regAna regAna personaAna personaAna rfl rfl rfl,
   c1_enmendada.2.1 regAna regAna personaAna personaAna
     ("Ana") ("Lopez") ("") ("Ana") ("Lopez") ("") rfl rfl
     rfl rfl rfl rfl rfl rfl (by decide) (by decide) (by decide)
     (by decide) (by decide) (by decide) rfl⟩

/-- C2 counterexample: in the batch of ("Luis X", "Y", "") and
("Luis", "X Y", "") the output rows carry `cantidadOcurrencias = 2`,
but only one record of the batch has the first row's Identity Key
(the exact name tuple) — the count is taken over the joined full-name
string, which both records share. -/
theorem c2_contraejemplo :
    ((analizar_duplicados dfColision2).1.map fun r => r.cantidadOcurrencias) = [2, 2] ∧
    ((analizar_duplicados dfColision2).1.map fun r => claveIdentidad r.persona) =
      [("Luis X", "Y", ""), ("Luis", "X Y", "")] ∧
    (dfColision2.countP fun p => decide (claveIdentidad p = ("Luis X", "Y", ""))) = 1 := by
  decide

/-- C2 amended: every output row's `occurrenceCount` equals the number
of Person-Records of the batch sharing the row's *joined* grouping key
— the `nombreCompleto` string in the partitioned analyzer, and the
`persona_key` string under which the occurrences were accumulated in
the whole-tree report (which coincides with the tuple count only when
no name field contains the separator). -/
theorem c2_enmendada :
    (∀ (df : List Persona) (r : Fila2), r ∈ (analizar_duplicados df).1 →
       r.cantidadOcurrencias = cuentaNombre df r.persona.nombreCompleto) ∧
    (∀ (l : List (String × OcurWT)) (k : String) (g : List OcurWT) (b : List FilaWT),
       (k, g) ∈ acumular l → filasGrupo (k, g) = some b →
       ∀ r ∈ b, r.cantidadOcurrencias = l.countP fun ke => ke.1 == k) := by
  constructor
  · intro df r h
    exact (analizar_mem h).1
  · intro l k g b hm hb r hr
    rw [(filasGrupo_numeros hb).2.2 r hr, (acumular_grupo hm).2]

/-- C2 witness: the first output row of the C2 batch carries the count
of its full-name string. -/
theorem c2_testigo :
    (Fila2.mk personaLuisX 2).cantidadOcurrencias =
      cuentaNombre dfColision2 (Fila2.mk personaLuisX 2).persona.nombreCompleto :=
  c2_enmendada.1 dfColision2 (Fila2.mk personaLuisX 2)
    (by rw [show (analizar_duplicados dfColision2).1 =
          [Fila2.mk personaLuisX 2, Fila2.mk personaLuisXY 2] from rfl]
        exact List.mem_cons_self _ _)

/-- C5 counterexample: in the batch of ("Eva Z", "W", "") and
("Eva", "Z W", "") every Identity Key (exact name tuple) occurs exactly
once, yet the Analyzer produces two duplicate rows — rows are produced
for the shared joined full-name string, not for shared tuples. -/
theorem c5_contraejemplo :
    ((analizar_duplicados dfColision5).1.map fun r => claveIdentidad r.persona) =
      [("Eva Z", "W", ""), ("Eva", "Z W", "")] ∧
    (dfColision5.countP fun p => decide (claveIdentidad p = ("Eva Z", "W", ""))) = 1 ∧
    (dfColision5.countP fun p => decide (claveIdentidad p = ("Eva", "Z W", ""))) = 1 := by
  decide

/-- C5 amended: the Analyzer produces rows only for joined full-name
strings shared by at least two records of the batch; a batch in which
every full-name string occurs once, and likewise an empty batch,
yields the empty result `([], 0)` returned normally.  The whole-tree
report likewise produces rows only for groups of size at least two,
and returns `False` (no rows) when there is no such group. -/
theorem c5_enmendada :
    (∀ (df : List Persona) (r : Fila2), r ∈ (analizar_duplicados df).1 →
       2 ≤ cuentaNombre df r.persona.nombreCompleto) ∧
    (∀ df : List Persona, (∀ p ∈ df, cuentaNombre df p.nombreCompleto = 1) →
       analizar_duplicados df = ([], 0)) ∧
    (analizar_duplicados [] = ([], 0)) ∧
    (∀ (dp : DatosPersonas) (rows : List FilaWT),
       generar_informe_duplicados dp = some rows →
       ∀ r ∈ rows, 2 ≤ r.cantidadOcurrencias) ∧
    (∀ dp : DatosPersonas, (∀ kv ∈ dp, kv.2.length ≤ 1) →
       generar_informe_duplicados dp = none) := by
  refine ⟨?_, ?_, rfl, ?_, ?_⟩
  · intro df r h
    exact (analizar_mem h).2
  · intro df hunique
    have hdup : duplicadosDe df = [] := by
      apply List.filter_eq_nil_iff.mpr
      intro p hp
      simp [hunique p hp]
    by_cases h0 : df.isEmpty
    · simp [analizar_duplicados, h0]
    · simp [analizar_duplicados, h0, hdup]
  · intro dp rows hgen r hr
    simp only [generar_informe_duplicados] at hgen
    by_cases hemp : (dp.filter fun kv => 1 < kv.2.length).isEmpty
    · rw [if_pos hemp] at hgen
      exact Option.noConfusion hgen
    · rw [if_neg hemp] at hgen
      obtain ⟨kv, hkv, b, hb, hrb⟩ := filasDuplicados_forall hgen r hr
      have hlen : 1 < kv.2.length := by
        simpa using (List.mem_filter.mp hkv).2
      rcases kv with ⟨k, g⟩
      rw [(filasGrupo_numeros hb).2.2 r hrb]
      exact hlen
  · intro dp hsolo
    simp only [generar_informe_duplicados]
    have hdup : (dp.filter fun kv => 1 < kv.2.length) = [] := by
      apply List.filter_eq_nil_iff.mpr
      intro kv hkv
      simpa using Nat.not_lt.mpr (hsolo kv hkv)
    rw [hdup]
    rfl

/-- C5 witness: a singleton batch has no duplicates and returns the
empty result normally. -/
theorem c5_testigo : analizar_duplicados [personaAna] = ([], 0) :=
  c5_enmendada.2.1 [personaAna] (by decide)

/-- C3 counterexample: two records with the same full name and
different ids come out of the Analyzer in their insertion order, so
the two insertion orders of the same batch yield different row
sequences; and in the whole-tree mode the report rows are not sorted
by occurrence count (a group of 2 inserted first precedes a group of
3). -/
theorem c3_contraejemplo :
    ((analizar_duplicados dfOrden12).1.map fun r => pyStr r.persona.id) = ["1", "2"] ∧
    ((analizar_duplicados dfOrden21).1.map fun r => pyStr r.persona.id) = ["2", "1"] ∧
    (analizar_duplicados dfOrden12).1 ≠ (analizar_duplicados dfOrden21).1 ∧
    ((generar_informe_duplicados dpDosTres).map fun rows =>
        rows.map fun r => r.cantidadOcurrencias) = some [2, 2, 3, 3, 3] ∧
    ¬ List.Sorted (fun a b : Nat => b ≤ a) [2, 2, 3, 3, 3] := by
  refine ⟨by decide, by decide, ?_, by decide, by decide⟩
  intro h
  have h1 : ((analizar_duplicados dfOrden12).1.map fun r => pyStr r.persona.id) =
      ["1", "2"] := by decide
  have h2 : ((analizar_duplicados dfOrden21).1.map fun r => pyStr r.persona.id) =
      ["2", "1"] := by decide
  rw [h] at h1
  exact absurd (h1.symm.trans h2) (by decide)

/-- C3 amended: in the partitioned modes the duplicate rows are sorted
by `cantidadOcurrencias` descending with ties by `nombreCompleto`
ascending, and the sequence of (count, full name) sort keys of the
output is identical for any two insertion orders of the same batch;
the full row sequence and any count ordering of the whole-tree report
are not guaranteed (ties keep insertion order; the whole-tree report
lists groups in accumulator insertion order). -/
theorem c3_enmendada :
    (∀ df : List Persona, List.Sorted ordenFilas (analizar_duplicados df).1) ∧
    (∀ df df' : List Persona, df.Perm df' →
       ((analizar_duplicados df).1.map claveOrden) =
         ((analizar_duplicados df').1.map claveOrden)) :=
  ⟨analizar_sorted, fun _ _ hp => analizar_claves_perm hp⟩

/-- C3 witness: the two insertion orders of the C3 batch produce the
same sequence of (count, full name) sort keys. -/
theorem c3_testigo :
    ((analizar_duplicados dfOrden12).1.map claveOrden) =
      ((analizar_duplicados dfOrden21).1.map claveOrden) :=
  c3_enmendada.2 dfOrden12 dfOrden21
    (by rw [show dfOrden12 = [personaMismo1, personaMismo2] from rfl,
          show dfOrden21 = [personaMismo2, personaMismo1] from rfl]
        exact List.Perm.swap personaMismo2 personaMismo1 [])
